import Mathlib

/-!
Verification development for `gofile-downloader-folder.py`.

The script has three cores, each embedded below as pure Lean functions:

* `Main._downloadContent` — a resumable streaming download of one file.
  We model the local filesystem as a map from path to file size in bytes,
  and an HTTP response as its status, the two size headers and the list of
  body chunk lengths.  The embedding follows the Python control flow
  statement by statement, including the `try/finally` block: an early
  `return` or an exception still runs the `finally` comparison, and an
  exception raised inside `finally` (e.g. `int(None)`, or `getsize` on a
  missing file) replaces whatever was in flight.

* `Main._parseLinks` / `Main._cacheLink` — recursive depth-first resolution
  of the remote content tree into the ordered download list, creating one
  local directory per folder node.  The remote tree is an inductive type;
  the process-wide `chdir` state is threaded as an explicit current path.
  `_parseLinks` on one node is embedded as `parseForest` on the singleton
  forest: the Python loop over a folder's children corresponds to
  `parseForest` on the child list.

* request generation — `Main.__init__` hashes the password with SHA-256
  before `_parseLinks` interpolates it into the content URLs.  SHA-256 is
  embedded from FIPS 180-4 (the script calls `hashlib.sha256`), so digests
  evaluate inside Lean.
-/

namespace Gofile

/-- Local filesystem: a path maps to the size in bytes of the file stored
there, `none` when no file exists at that path. -/
abbrev Fs : Type := String → Option Nat

/-- Writing a file of size `n` at path `p` (creation or truncate/extend). -/
def fsWrite (fs : Fs) (p : String) (n : Nat) : Fs :=
  fun q => if q = p then some n else fs q

/-- Removing the file at path `p`. -/
def fsErase (fs : Fs) (p : String) : Fs :=
  fun q => if q = p then none else fs q

/-- The `file_info` dictionary built by `Main._cacheLink`:
`{"path": ..., "filename": ..., "link": ...}`. -/
structure FileInfo where
  path : String
  filename : String
  link : String

/-- One HTTP response to the streaming GET of `Main._downloadContent`:
status code, the `Content-Length` and `Content-Range` headers (absent
header = `none`), the byte lengths of the chunks yielded by
`iter_content`, and whether the stream raises an exception after the
listed chunks have been delivered. -/
structure HttpResponse where
  status : Nat
  contentLength : Option String
  contentRange : Option String
  chunks : List Nat
  streamRaises : Bool

/-- The lines `Main._downloadContent` prints apart from in-progress
percentage updates. -/
inductive Report where
  | alreadyExists (filename : String)
  | statusError (url : String) (code : Nat)
  | sizeMissing (url : String) (code : Nat)
  | doneLine (filename : String) (size : Nat) (total : String)
deriving DecidableEq

/-- How one `Main._downloadContent` call ends.  The `crash` outcomes are
uncaught Python exceptions raised inside the `finally` block
(`FileNotFoundError` from `getsize` on a missing `.part`, `TypeError` from
`int(None)`, `ValueError` from `int` on a non-numeric string); the
`ThreadPoolExecutor` swallows them, so they never abort the batch. -/
inductive FetchOutcome where
  | skipped
  | done
  | doneAfterStreamError
  | sizeMismatch
  | streamErrorSizeMismatch
  | crashFileNotFound
  | crashTypeError
  | crashValueError
deriving DecidableEq

/-- Observable result of one `Main._downloadContent` call: the filesystem
afterwards, how the call ended, how many network requests it made, the
offset carried by a `Range` header if one was sent, the bytes-transferred
figure printed after each chunk, the `.part` file's size after each chunk
write, and the non-progress lines printed. -/
structure FetchResult where
  fs : Fs
  outcome : FetchOutcome
  requests : Nat
  rangeHeader : Option Nat
  events : List Nat
  partTrace : List Nat
  reports : List Report

/-- The opening guard `if path.exists(p): if path.getsize(p) > 0:`. -/
def existsPos (fs : Fs) (p : String) : Bool :=
  match fs p with
  | some n => decide (0 < n)
  | none => false

/-- The status validation of `Main._downloadContent`:
`(status in (403,404,405,500)) or (part_size == 0 and status != 200)
or (part_size > 0 and status != 206)`. -/
def statusAbortCond (part_size status : Nat) : Bool :=
  (status == 403 || status == 404 || status == 405 || status == 500)
    || (part_size == 0 && status != 200)
    || (decide (0 < part_size) && status != 206)

/-- Python `s.split("/")[-1]`. -/
def splitLast (s : String) : String :=
  (s.splitOn "/").getLastD ""

/-- Python `int(s)` (and `float(s)`) applied to a size-header value:
the headers carry decimal byte counts, so an all-digit string parses to
its value and anything else (including the empty string) raises. -/
def parseSize (s : String) : Option Nat :=
  if s.data.length != 0 && s.data.all (fun c => c.isDigit) then
    some (s.data.foldl (fun n c => n * 10 + (c.toNat - 48)) 0)
  else none

/-- The bytes figure printed after each chunk:
`part_size + i * len(chunk)` for the chunk at (0-based) index `i`. -/
def streamEvents (part_size : Nat) : List Nat → Nat → List Nat
  | [], _ => []
  | c :: cs, i => (part_size + i * c) :: streamEvents part_size cs (i + 1)

/-- Size of the `.part` file after each `handler.write(chunk)`. -/
def streamTrace : Nat → List Nat → List Nat
  | _, [] => []
  | sz, c :: cs => (sz + c) :: streamTrace (sz + c) cs

/-- The `finally` block of `Main._downloadContent`:
`if path.getsize(filename) == int(has_size): ... move(filename, path)`.
`hasSize` is the Python variable `has_size` (`none` = Python `None`);
`inflight` is the outcome the call would have if `finally` completes
without renaming; numeric parsing of `int(...)` is modelled by
`parseSize` (header values are decimal byte counts). -/
def finalize (fi : FileInfo) (fs : Fs) (filename : String)
    (hasSize : Option String) (inflight : FetchOutcome)
    (rangeHeader : Option Nat) (reports : List Report)
    (events partTrace : List Nat) : FetchResult :=
  match fs filename with
  | none =>
      { fs := fs, outcome := .crashFileNotFound, requests := 1,
        rangeHeader := rangeHeader, events := events, partTrace := partTrace,
        reports := reports }
  | some sz =>
      match hasSize with
      | none =>
          { fs := fs, outcome := .crashTypeError, requests := 1,
            rangeHeader := rangeHeader, events := events,
            partTrace := partTrace, reports := reports }
      | some s =>
          match parseSize s with
          | none =>
              { fs := fs, outcome := .crashValueError, requests := 1,
                rangeHeader := rangeHeader, events := events,
                partTrace := partTrace, reports := reports }
          | some n =>
              if sz = n then
                { fs := fsWrite (fsErase fs filename) fi.path sz,
                  outcome := (match inflight with
                              | .streamErrorSizeMismatch => .doneAfterStreamError
                              | _ => .done),
                  requests := 1, rangeHeader := rangeHeader, events := events,
                  partTrace := partTrace,
                  reports := reports ++ [Report.doneLine fi.filename sz s] }
              else
                { fs := fs, outcome := inflight, requests := 1,
                  rangeHeader := rangeHeader, events := events,
                  partTrace := partTrace, reports := reports }

/-- Continuation of `Main._downloadContent` once `has_size` holds the
string `s` (from `Content-Length`, or the `Content-Range` suffix): the
`if not has_size` truthiness test, `open(filename, 'ab')` (which creates a
missing `.part`), `float(has_size)`, and the chunk loop. -/
def afterSize (fi : FileInfo) (fs : Fs) (filename : String) (part_size : Nat)
    (s : String) (rangeHeader : Option Nat) (resp : HttpResponse) :
    FetchResult :=
  if s = "" then
    finalize fi fs filename (some s) .sizeMismatch rangeHeader
      [Report.sizeMissing fi.link resp.status] [] []
  else
    let fs1 := fsWrite fs filename part_size
    match parseSize s with
    | none =>
        finalize fi fs1 filename (some s) .sizeMismatch rangeHeader [] [] []
    | some _ =>
        let fs2 := fsWrite fs1 filename (part_size + resp.chunks.sum)
        finalize fi fs2 filename (some s)
          (if resp.streamRaises then .streamErrorSizeMismatch
           else .sizeMismatch)
          rangeHeader []
          (streamEvents part_size resp.chunks 0)
          (streamTrace part_size resp.chunks)

/-- Body of `Main._downloadContent` past the already-exists guard: resume
offset from the `.part` size, `Range` header exactly when the `.part`
file exists, the GET, status validation, and `has_size` extraction.  When
`part_size > 0` and `Content-Range` is absent, `None.split` raises an
`AttributeError` with no message printed, so control reaches `finally`
with `has_size = None`. -/
def downloadBody (fi : FileInfo) (fs : Fs) (resp : HttpResponse) :
    FetchResult :=
  let filename := fi.path ++ ".part"
  let part_size := (fs filename).getD 0
  let rangeHeader : Option Nat :=
    if (fs filename).isSome then some part_size else none
  if statusAbortCond part_size resp.status then
    finalize fi fs filename none .sizeMismatch rangeHeader
      [Report.statusError fi.link resp.status] [] []
  else if part_size = 0 then
    match resp.contentLength with
    | none =>
        finalize fi fs filename none .sizeMismatch rangeHeader
          [Report.sizeMissing fi.link resp.status] [] []
    | some s => afterSize fi fs filename part_size s rangeHeader resp
  else
    match resp.contentRange with
    | none =>
        finalize fi fs filename none .sizeMismatch rangeHeader [] [] []
    | some cr =>
        afterSize fi fs filename part_size (splitLast cr) rangeHeader resp

/-- `Main._downloadContent`: skip when the final path already exists with
positive size, otherwise run the fetch body. -/
def downloadContent (fi : FileInfo) (fs : Fs) (resp : HttpResponse) :
    FetchResult :=
  if existsPos fs fi.path then
    { fs := fs, outcome := .skipped, requests := 0, rangeHeader := none,
      events := [], partTrace := [],
      reports := [Report.alreadyExists fi.filename] }
  else downloadBody fi fs resp

/-- `Main._threadedDownloads`: one `_downloadContent` task per cached
entry; each task sees its own filesystem region and response (`env`). -/
def threadedDownloads (items : List FileInfo)
    (env : FileInfo → Fs × HttpResponse) : List FetchResult :=
  items.map fun fi => downloadContent fi (env fi).1 (env fi).2

/-- A node of the remote content tree, as returned by the
`describe-content` endpoint: a file carries its name and download link, a
folder carries its `code` (the id used to re-fetch it), its name, and its
children in the order of `childrenIds`. -/
inductive ContentNode where
  | file (name link : String)
  | folder (code name : String) (children : List ContentNode)

/-- One entry appended by `Main._cacheLink`: local path (as the list of
directory components ending in the filename), filename, and link. -/
structure FileEntry where
  path : List String
  filename : String
  link : String
deriving DecidableEq

/-- Depth-first resolution of a forest of sibling nodes, threading the
current local directory `cwd` explicitly (the script mutates the process
working directory with `chdir` and restores it with `chdir(path.pardir)`).
Returns the cached file entries in append order and the local directories
created by `_createDir` in creation order.  `Main._parseLinks` on one node
is `parseForest` on the singleton forest; the loop over a folder's
children (files cached directly, folders re-fetched and recursed) is
`parseForest` on the child list. -/
def parseForest : List ContentNode → List String →
    List FileEntry × List (List String)
  | [], _ => ([], [])
  | ContentNode.file n l :: cs, cwd =>
      let rest := parseForest cs cwd
      (⟨cwd ++ [n], n, l⟩ :: rest.1, rest.2)
  | ContentNode.folder _ n ch :: cs, cwd =>
      let inner := parseForest ch (cwd ++ [n])
      let rest := parseForest cs cwd
      (inner.1 ++ rest.1, (cwd ++ [n]) :: (inner.2 ++ rest.2))

/-- `Main._parseLinks` applied to the node fetched for the root id, in
root directory `cwd`. -/
def parseLinks (t : ContentNode) (cwd : List String) :
    List FileEntry × List (List String) :=
  parseForest [t] cwd

/-- Modelled from the spec: the deterministic depth-first pre-order visit
sequence of the remote listing ("depth-first, sibling order preserved from
the remote listing"), pairing each visited node with the local directory
context in which it is visited. -/
def visitForest : List String → List ContentNode →
    List (List String × ContentNode)
  | _, [] => []
  | cwd, ContentNode.file n l :: ts =>
      (cwd, ContentNode.file n l) :: visitForest cwd ts
  | cwd, ContentNode.folder c n ch :: ts =>
      (cwd, ContentNode.folder c n ch)
        :: (visitForest (cwd ++ [n]) ch ++ visitForest cwd ts)

/-- The manifest entry a visited file node contributes, `none` for a
folder node. -/
def fileEntryOf : List String × ContentNode → Option FileEntry
  | (cwd, ContentNode.file n l) => some ⟨cwd ++ [n], n, l⟩
  | (_, ContentNode.folder _ _ _) => none

/-- The local directory a visited folder node contributes (mirrored under
its parent's directory), `none` for a file node. -/
def dirOf : List String × ContentNode → Option (List String)
  | (_, ContentNode.file _ _) => none
  | (cwd, ContentNode.folder _ n _) => some (cwd ++ [n])

/-! SHA-256 (FIPS 180-4), the algorithm behind the script's
`sha256(password.encode()).hexdigest()`.  Words are naturals reduced
modulo `2 ^ 32`. -/

/-- `2 ^ 32`. -/
def M32 : Nat := 4294967296

/-- Addition modulo `2 ^ 32`. -/
def add32 (a b : Nat) : Nat := (a + b) % M32

/-- Right rotation of a 32-bit word by `n`. -/
def rotr (n x : Nat) : Nat := ((x >>> n) ||| (x <<< (32 - n))) % M32

/-- Bitwise complement of a 32-bit word. -/
def bnot32 (x : Nat) : Nat := x ^^^ (M32 - 1)

/-- The SHA-256 `Ch` function. -/
def chFun (x y z : Nat) : Nat := (x &&& y) ^^^ (bnot32 x &&& z)

/-- The SHA-256 `Maj` function. -/
def majFun (x y z : Nat) : Nat := (x &&& y) ^^^ (x &&& z) ^^^ (y &&& z)

/-- Big sigma-0. -/
def bsig0 (x : Nat) : Nat := rotr 2 x ^^^ rotr 13 x ^^^ rotr 22 x

/-- Big sigma-1. -/
def bsig1 (x : Nat) : Nat := rotr 6 x ^^^ rotr 11 x ^^^ rotr 25 x

/-- Small sigma-0. -/
def ssig0 (x : Nat) : Nat := rotr 7 x ^^^ rotr 18 x ^^^ (x >>> 3)

/-- Small sigma-1. -/
def ssig1 (x : Nat) : Nat := rotr 17 x ^^^ rotr 19 x ^^^ (x >>> 10)

/-- The 64 SHA-256 round constants (FIPS 180-4 section 4.2.2, written in
decimal). -/
def K256 : Array Nat := #[
  1116352408, 1899447441, 3049323471, 3921009573,
  961987163, 1508970993, 2453635748, 2870763221,
  3624381080, 310598401, 607225278, 1426881987,
  1925078388, 2162078206, 2614888103, 3248222580,
  3835390401, 4022224774, 264347078, 604807628,
  770255983, 1249150122, 1555081692, 1996064986,
  2554220882, 2821834349, 2952996808, 3210313671,
  3336571891, 3584528711, 113926993, 338241895,
  666307205, 773529912, 1294757372, 1396182291,
  1695183700, 1986661051, 2177026350, 2456956037,
  2730485921, 2820302411, 3259730800, 3345764771,
  3516065817, 3600352804, 4094571909, 275423344,
  430227734, 506948616, 659060556, 883997877,
  958139571, 1322822218, 1537002063, 1747873779,
  1955562222, 2024104815, 2227730452, 2361852424,
  2428436474, 2756734187, 3204031479, 3329325298]

/-- The SHA-256 initial hash value (FIPS 180-4 section 5.3.3, in
decimal). -/
def H256 : Array Nat := #[
  1779033703, 3144134277, 1013904242, 2773480762,
  1359893119, 2600822924, 528734635, 1541459225]

/-- UTF-8 encoding of one code point (Python's `str.encode()`). -/
def utf8Bytes (c : Nat) : List Nat :=
  if c < 0x80 then [c]
  else if c < 0x800 then
    [0xC0 ||| (c >>> 6), 0x80 ||| (c &&& 0x3F)]
  else if c < 0x10000 then
    [0xE0 ||| (c >>> 12), 0x80 ||| ((c >>> 6) &&& 0x3F),
     0x80 ||| (c &&& 0x3F)]
  else
    [0xF0 ||| (c >>> 18), 0x80 ||| ((c >>> 12) &&& 0x3F),
     0x80 ||| ((c >>> 6) &&& 0x3F), 0x80 ||| (c &&& 0x3F)]

/-- UTF-8 bytes of a string. -/
def strBytes (s : String) : List Nat :=
  (s.data.map fun c => utf8Bytes c.toNat).flatten

/-- SHA-256 padding: `0x80`, zeros to 56 mod 64, 8-byte big-endian bit
length. -/
def padMessage (msg : List Nat) : List Nat :=
  let L := msg.length
  msg ++ 0x80 :: List.replicate ((119 - L % 64) % 64) 0
    ++ (List.range 8).map fun i => ((8 * L) >>> (8 * (7 - i))) % 256

/-- Big-endian 32-bit words from a byte list whose length is a multiple
of 4. -/
def bytesToWords : List Nat → List Nat
  | a :: b :: c :: d :: rest =>
      (((a * 256 + b) * 256 + c) * 256 + d) :: bytesToWords rest
  | _ => []

/-- Message schedule: extend the 16 block words to 64. -/
def schedW (block : Array Nat) : Array Nat :=
  (List.range 48).foldl
    (fun w i =>
      let t := i + 16
      w.push (add32 (add32 (ssig1 w[t - 2]!) w[t - 7]!)
        (add32 (ssig0 w[t - 15]!) w[t - 16]!)))
    block

/-- One SHA-256 compression step over a 16-word block. -/
def compress (h : Array Nat) (block : Array Nat) : Array Nat :=
  let w := schedW block
  let st := (List.range 64).foldl
    (fun st t =>
      match st with
      | (a, b, c, d, e, f, g, hh) =>
        let t1 := add32 hh (add32 (bsig1 e)
          (add32 (chFun e f g) (add32 K256[t]! w[t]!)))
        let t2 := add32 (bsig0 a) (majFun a b c)
        (add32 t1 t2, a, b, c, add32 d t1, e, f, g))
    (h[0]!, h[1]!, h[2]!, h[3]!, h[4]!, h[5]!, h[6]!, h[7]!)
  match st with
  | (a, b, c, d, e, f, g, hh) =>
    #[add32 h[0]! a, add32 h[1]! b, add32 h[2]! c, add32 h[3]! d,
      add32 h[4]! e, add32 h[5]! f, add32 h[6]! g, add32 h[7]! hh]

/-- SHA-256 over a padded word list. -/
def sha256Words (ws : List Nat) : Array Nat :=
  (List.range (ws.length / 16)).foldl
    (fun h i => compress h (Array.mk ((ws.drop (16 * i)).take 16)))
    H256

/-- Lower-case hex digit. -/
def hexChar (n : Nat) : Char :=
  if n < 10 then Char.ofNat (48 + n) else Char.ofNat (87 + n)

/-- Eight hex digits of a 32-bit word. -/
def wordHex (w : Nat) : List Char :=
  (List.range 8).map fun i => hexChar ((w >>> (4 * (7 - i))) % 16)

/-- `sha256(s.encode()).hexdigest()`. -/
def sha256hex (s : String) : String :=
  String.mk
    (((sha256Words (bytesToWords (padMessage (strBytes s)))).toList.map
      wordHex).flatten)

/-- `Main.__init__` line 63:
`sha256(password.encode()).hexdigest() if password else None` (`None` and
the empty string are falsy). -/
def hashedPassword (password : Option String) : Option String :=
  match password with
  | some p => if p = "" then none else some (sha256hex p)
  | none => none

/-! The network requests a run makes. -/

/-- A network request of the run: the account-creation POST of
`_getToken`, a `describe-content` GET of `_parseLinks` (its URL and the
value interpolated after `&password=`, if any), or the streaming GET of
`_downloadContent`. -/
inductive Request where
  | createAccount
  | describeContent (url : String) (passwordParam : Option String)
  | fetchFile (link : String)
deriving DecidableEq

/-- The URL built by `Main._parseLinks`:
`https://api.gofile.io/contents/{id}?wt=4fd6sg89d7s6&cache=true` plus
`&password={password}` when a password is set. -/
def contentUrl (id : String) (password : Option String) : String :=
  "https://api.gofile.io/contents/" ++ id ++ "?wt=4fd6sg89d7s6&cache=true"
    ++ (match password with
        | some p => "&password=" ++ p
        | none => "")

/-- The password query parameter a request carries. -/
def passwordParamOf : Request → Option String
  | Request.describeContent _ p => p
  | _ => none

/-- The `describe-content` requests issued while processing a forest of
sibling child nodes: file children are cached without a request, folder
children are re-fetched by their `code` and recursed into. -/
def forestRequests (password : Option String) :
    List ContentNode → List Request
  | [] => []
  | ContentNode.file _ _ :: ts => forestRequests password ts
  | ContentNode.folder code _ ch :: ts =>
      Request.describeContent (contentUrl code password) password
        :: (forestRequests password ch ++ forestRequests password ts)

/-- The `describe-content` requests of `Main._parseLinks` starting from
the root id (the root node itself is fetched by the id taken from the
URL). -/
def parseRequests (rootId : String) (password : Option String)
    (t : ContentNode) : List Request :=
  Request.describeContent (contentUrl rootId password) password
    :: (match t with
        | ContentNode.file _ _ => []
        | ContentNode.folder _ _ ch => forestRequests password ch)

/-- All requests of one `Main` run: account creation, then the
`describe-content` requests with the hashed password, then one streaming
GET per cached entry. -/
def runRequests (rootId : String) (password : Option String)
    (t : ContentNode) : List Request :=
  Request.createAccount
    :: (parseRequests rootId (hashedPassword password) t
        ++ (parseLinks t []).1.map fun e => Request.fetchFile e.link)

/-! Helper lemmas. -/

@[simp] theorem fsWrite_self (fs : Fs) (p : String) (n : Nat) :
    fsWrite fs p n p = some n := by
  simp [fsWrite]

theorem fsWrite_other (fs : Fs) (p q : String) (n : Nat) (h : q ≠ p) :
    fsWrite fs p n q = fs q := by
  simp [fsWrite, h]

@[simp] theorem fsErase_self (fs : Fs) (p : String) :
    fsErase fs p p = none := by
  simp [fsErase]

theorem fsErase_other (fs : Fs) (p q : String) (h : q ≠ p) :
    fsErase fs p q = fs q := by
  simp [fsErase, h]

theorem part_ne (p : String) : p ++ ".part" ≠ p := by
  intro h
  have h2 := congrArg String.length h
  rw [String.length_append] at h2
  have h3 : (".part" : String).length = 5 := rfl
  rw [h3] at h2
  omega

theorem finalize_noneSize (fi : FileInfo) (fs : Fs) (filename : String)
    (infl : FetchOutcome) (rh : Option Nat) (rs : List Report)
    (ev tr : List Nat) :
    finalize fi fs filename none infl rh rs ev tr =
      { fs := fs,
        outcome := if (fs filename).isSome then .crashTypeError
                   else .crashFileNotFound,
        requests := 1, rangeHeader := rh, events := ev, partTrace := tr,
        reports := rs } := by
  unfold finalize
  cases h : fs filename <;> simp

theorem finalize_badParse (fi : FileInfo) (fs : Fs) (filename s : String)
    (infl : FetchOutcome) (rh : Option Nat) (rs : List Report)
    (ev tr : List Nat) (hp : parseSize s = none) :
    finalize fi fs filename (some s) infl rh rs ev tr =
      { fs := fs,
        outcome := if (fs filename).isSome then .crashValueError
                   else .crashFileNotFound,
        requests := 1, rangeHeader := rh, events := ev, partTrace := tr,
        reports := rs } := by
  unfold finalize
  cases h : fs filename <;> simp [hp]

theorem finalize_parsed (fi : FileInfo) (fs : Fs) (filename s : String)
    (m n : Nat) (infl : FetchOutcome) (rh : Option Nat) (rs : List Report)
    (ev tr : List Nat) (hp : parseSize s = some n) (hm : fs filename = some m) :
    finalize fi fs filename (some s) infl rh rs ev tr =
      (if m = n then
        { fs := fsWrite (fsErase fs filename) fi.path m,
          outcome := (match infl with
                      | .streamErrorSizeMismatch => .doneAfterStreamError
                      | _ => .done),
          requests := 1, rangeHeader := rh, events := ev, partTrace := tr,
          reports := rs ++ [Report.doneLine fi.filename m s] }
       else
        { fs := fs, outcome := infl, requests := 1, rangeHeader := rh,
          events := ev, partTrace := tr, reports := rs }) := by
  unfold finalize
  simp [hm, hp]

theorem afterSize_emptyStr (fi : FileInfo) (fs : Fs) (filename : String)
    (part_size : Nat) (rh : Option Nat) (resp : HttpResponse) :
    afterSize fi fs filename part_size "" rh resp =
      { fs := fs,
        outcome := if (fs filename).isSome then .crashValueError
                   else .crashFileNotFound,
        requests := 1, rangeHeader := rh, events := [], partTrace := [],
        reports := [Report.sizeMissing fi.link resp.status] } := by
  unfold afterSize
  rw [if_pos rfl]
  exact finalize_badParse _ _ _ _ _ _ _ _ _ rfl

theorem afterSize_badParse (fi : FileInfo) (fs : Fs) (filename s : String)
    (part_size : Nat) (rh : Option Nat) (resp : HttpResponse)
    (hne : s ≠ "") (hp : parseSize s = none) :
    afterSize fi fs filename part_size s rh resp =
      { fs := fsWrite fs filename part_size, outcome := .crashValueError,
        requests := 1, rangeHeader := rh, events := [], partTrace := [],
        reports := [] } := by
  unfold afterSize
  rw [if_neg hne]
  simp only [hp]
  rw [finalize_badParse _ _ _ _ _ _ _ _ _ hp]
  simp

theorem afterSize_stream (fi : FileInfo) (fs : Fs) (filename s : String)
    (part_size n : Nat) (rh : Option Nat) (resp : HttpResponse)
    (hne : s ≠ "") (hp : parseSize s = some n) :
    afterSize fi fs filename part_size s rh resp =
      (if part_size + resp.chunks.sum = n then
        { fs := fsWrite
            (fsErase (fsWrite (fsWrite fs filename part_size) filename
              (part_size + resp.chunks.sum)) filename)
            fi.path (part_size + resp.chunks.sum),
          outcome := if resp.streamRaises then .doneAfterStreamError
                     else .done,
          requests := 1, rangeHeader := rh,
          events := streamEvents part_size resp.chunks 0,
          partTrace := streamTrace part_size resp.chunks,
          reports := [Report.doneLine fi.filename
            (part_size + resp.chunks.sum) s] }
       else
        { fs := fsWrite (fsWrite fs filename part_size) filename
            (part_size + resp.chunks.sum),
          outcome := if resp.streamRaises then .streamErrorSizeMismatch
                     else .sizeMismatch,
          requests := 1, rangeHeader := rh,
          events := streamEvents part_size resp.chunks 0,
          partTrace := streamTrace part_size resp.chunks,
          reports := [] }) := by
  unfold afterSize
  rw [if_neg hne]
  simp only [hp]
  rw [finalize_parsed _ _ _ _ (part_size + resp.chunks.sum) n _ _ _ _ _ hp
    (by simp)]
  by_cases hfin : part_size + resp.chunks.sum = n
  · rw [if_pos hfin, if_pos hfin]
    cases hsr : resp.streamRaises <;> simp
  · rw [if_neg hfin, if_neg hfin]

theorem downloadContent_noSkip (fi : FileInfo) (fs : Fs)
    (resp : HttpResponse) (hE : existsPos fs fi.path = false) :
    downloadContent fi fs resp = downloadBody fi fs resp := by
  unfold downloadContent
  rw [hE]
  simp

theorem downloadBody_statusAbort (fi : FileInfo) (fs : Fs)
    (resp : HttpResponse)
    (hS : statusAbortCond ((fs (fi.path ++ ".part")).getD 0) resp.status
      = true) :
    downloadBody fi fs resp =
      { fs := fs,
        outcome := if (fs (fi.path ++ ".part")).isSome then .crashTypeError
                   else .crashFileNotFound,
        requests := 1,
        rangeHeader := if (fs (fi.path ++ ".part")).isSome
                       then some ((fs (fi.path ++ ".part")).getD 0) else none,
        events := [], partTrace := [],
        reports := [Report.statusError fi.link resp.status] } := by
  unfold downloadBody
  simp only [hS, if_true]
  exact finalize_noneSize _ _ _ _ _ _ _ _

theorem downloadBody_noCL (fi : FileInfo) (fs : Fs) (resp : HttpResponse)
    (hS : statusAbortCond ((fs (fi.path ++ ".part")).getD 0) resp.status
      = false)
    (hp : (fs (fi.path ++ ".part")).getD 0 = 0)
    (hcl : resp.contentLength = none) :
    downloadBody fi fs resp =
      { fs := fs,
        outcome := if (fs (fi.path ++ ".part")).isSome then .crashTypeError
                   else .crashFileNotFound,
        requests := 1,
        rangeHeader := if (fs (fi.path ++ ".part")).isSome
                       then some ((fs (fi.path ++ ".part")).getD 0) else none,
        events := [], partTrace := [],
        reports := [Report.sizeMissing fi.link resp.status] } := by
  have hS0 : statusAbortCond 0 resp.status = false := hp ▸ hS
  unfold downloadBody
  simp [hp, hS0, hcl, finalize_noneSize]

theorem downloadBody_withCL (fi : FileInfo) (fs : Fs) (resp : HttpResponse)
    (s : String)
    (hS : statusAbortCond ((fs (fi.path ++ ".part")).getD 0) resp.status
      = false)
    (hp : (fs (fi.path ++ ".part")).getD 0 = 0)
    (hcl : resp.contentLength = some s) :
    downloadBody fi fs resp =
      afterSize fi fs (fi.path ++ ".part") ((fs (fi.path ++ ".part")).getD 0)
        s
        (if (fs (fi.path ++ ".part")).isSome
         then some ((fs (fi.path ++ ".part")).getD 0) else none)
        resp := by
  have hS0 : statusAbortCond 0 resp.status = false := hp ▸ hS
  unfold downloadBody
  simp [hp, hS0, hcl]

theorem downloadBody_noCR (fi : FileInfo) (fs : Fs) (resp : HttpResponse)
    (hS : statusAbortCond ((fs (fi.path ++ ".part")).getD 0) resp.status
      = false)
    (hp : (fs (fi.path ++ ".part")).getD 0 ≠ 0)
    (hcr : resp.contentRange = none) :
    downloadBody fi fs resp =
      { fs := fs, outcome := .crashTypeError, requests := 1,
        rangeHeader := some ((fs (fi.path ++ ".part")).getD 0),
        events := [], partTrace := [], reports := [] } := by
  have hsome : (fs (fi.path ++ ".part")).isSome = true := by
    cases h : fs (fi.path ++ ".part") with
    | none => exact absurd (by rw [h]; rfl) hp
    | some v => rfl
  unfold downloadBody
  simp only [hS, Bool.false_eq_true, if_false, if_neg hp, hcr, hsome,
    if_true]
  rw [finalize_noneSize]
  simp [hsome]

theorem downloadBody_withCR (fi : FileInfo) (fs : Fs) (resp : HttpResponse)
    (cr : String)
    (hS : statusAbortCond ((fs (fi.path ++ ".part")).getD 0) resp.status
      = false)
    (hp : (fs (fi.path ++ ".part")).getD 0 ≠ 0)
    (hcr : resp.contentRange = some cr) :
    downloadBody fi fs resp =
      afterSize fi fs (fi.path ++ ".part") ((fs (fi.path ++ ".part")).getD 0)
        (splitLast cr)
        (if (fs (fi.path ++ ".part")).isSome
         then some ((fs (fi.path ++ ".part")).getD 0) else none)
        resp := by
  unfold downloadBody
  simp only [hS, Bool.false_eq_true, if_false, if_neg hp, hcr]

theorem streamTrace_le (cs : List Nat) :
    ∀ (sz : Nat), ∀ x ∈ streamTrace sz cs, x ≤ sz + cs.sum := by
  induction cs with
  | nil => intro sz x hx; simp [streamTrace] at hx
  | cons c cs ih =>
      intro sz x hx
      simp only [streamTrace, List.mem_cons] at hx
      rcases hx with rfl | hx
      · simp only [List.sum_cons]
        omega
      · have h2 := ih (sz + c) x hx
        simp only [List.sum_cons]
        omega

theorem parseForest_spec (ts : List ContentNode) (cwd : List String) :
    (parseForest ts cwd).1 = (visitForest cwd ts).filterMap fileEntryOf
    ∧ (parseForest ts cwd).2 = (visitForest cwd ts).filterMap dirOf := by
  induction ts, cwd using parseForest.induct with
  | case1 cwd => simp [parseForest, visitForest]
  | case2 n l cs cwd ih =>
      simp [parseForest, visitForest, fileEntryOf, dirOf, ih.1, ih.2]
  | case3 code n ch cs cwd ih1 ih2 =>
      simp [parseForest, visitForest, fileEntryOf, dirOf, ih1.1, ih1.2,
        ih2.1, ih2.2, List.filterMap_append]

theorem afterSize_proj (fi : FileInfo) (fs : Fs) (filename s : String)
    (part_size : Nat) (rh : Option Nat) (resp : HttpResponse) :
    (afterSize fi fs filename part_size s rh resp).rangeHeader = rh
    ∧ (afterSize fi fs filename part_size s rh resp).requests = 1
    ∧ ∀ u c, Report.statusError u c
        ∉ (afterSize fi fs filename part_size s rh resp).reports := by
  by_cases hne : s = ""
  · subst hne
    rw [afterSize_emptyStr]
    refine ⟨rfl, rfl, ?_⟩
    intro u c
    simp
  · cases hp : parseSize s with
    | none =>
        rw [afterSize_badParse _ _ _ _ _ _ _ hne hp]
        refine ⟨rfl, rfl, ?_⟩
        intro u c
        simp
    | some n =>
        rw [afterSize_stream _ _ _ _ _ _ _ _ hne hp]
        by_cases hf : part_size + resp.chunks.sum = n
        · rw [if_pos hf]
          refine ⟨rfl, rfl, ?_⟩
          intro u c
          simp
        · rw [if_neg hf]
          refine ⟨rfl, rfl, ?_⟩
          intro u c
          simp

theorem afterSize_fs_spec (fi : FileInfo) (fs : Fs) (filename s : String)
    (part_size n : Nat) (rh : Option Nat) (resp : HttpResponse)
    (hn : parseSize s = some n) (hne : filename ≠ fi.path) :
    ((afterSize fi fs filename part_size s rh resp).fs fi.path
        = some (part_size + resp.chunks.sum)
      ∧ (afterSize fi fs filename part_size s rh resp).fs filename = none
     ↔ part_size + resp.chunks.sum = n)
    ∧ (part_size + resp.chunks.sum ≠ n →
        (afterSize fi fs filename part_size s rh resp).fs filename
          = some (part_size + resp.chunks.sum)
        ∧ (afterSize fi fs filename part_size s rh resp).fs fi.path
          = fs fi.path) := by
  have hs : s ≠ "" := by
    rintro rfl
    rw [show parseSize "" = none from rfl] at hn
    exact Option.noConfusion hn
  rw [afterSize_stream _ _ _ _ _ _ _ _ hs hn]
  by_cases hf : part_size + resp.chunks.sum = n
  · rw [if_pos hf]
    refine ⟨iff_of_true ⟨?_, ?_⟩ hf, fun hcon => absurd hf hcon⟩
    · simp [fsWrite]
    · simp [fsWrite, fsErase, hne]
  · rw [if_neg hf]
    refine ⟨iff_of_false ?_ hf, fun _ => ⟨by simp [fsWrite], ?_⟩⟩
    · rintro ⟨-, h2⟩
      simp [fsWrite] at h2
    · simp [fsWrite, Ne.symm hne]

theorem downloadBody_toStream (fi : FileInfo) (fs : Fs)
    (resp : HttpResponse) (s : String)
    (hS : statusAbortCond ((fs (fi.path ++ ".part")).getD 0) resp.status
      = false)
    (hsz : (if (fs (fi.path ++ ".part")).getD 0 = 0 then resp.contentLength
            else resp.contentRange.map splitLast) = some s) :
    downloadBody fi fs resp =
      afterSize fi fs (fi.path ++ ".part") ((fs (fi.path ++ ".part")).getD 0)
        s
        (if (fs (fi.path ++ ".part")).isSome
         then some ((fs (fi.path ++ ".part")).getD 0) else none)
        resp := by
  by_cases hp : (fs (fi.path ++ ".part")).getD 0 = 0
  · rw [if_pos hp] at hsz
    exact downloadBody_withCL _ _ _ s hS hp hsz
  · rw [if_neg hp] at hsz
    cases hcr : resp.contentRange with
    | none =>
        rw [hcr] at hsz
        simp at hsz
    | some cr =>
        rw [hcr] at hsz
        simp only [Option.map_some', Option.some.injEq] at hsz
        rw [downloadBody_withCR _ _ _ cr hS hp hcr, hsz]

theorem forestRequests_param (p : Option String) (ts : List ContentNode) :
    ∀ r ∈ forestRequests p ts, ∃ u, r = Request.describeContent u p := by
  induction ts using forestRequests.induct p with
  | case1 => intro r hr; simp [forestRequests] at hr
  | case2 n l ts ih =>
      intro r hr
      rw [forestRequests] at hr
      exact ih r hr
  | case3 code n ch ts ih1 ih2 =>
      intro r hr
      rw [forestRequests] at hr
      rcases List.mem_cons.mp hr with rfl | hr2
      · exact ⟨_, rfl⟩
      · rcases List.mem_append.mp hr2 with h | h
        · exact ih1 r h
        · exact ih2 r h

theorem parseRequests_param (rootId : String) (p : Option String)
    (t : ContentNode) :
    ∀ r ∈ parseRequests rootId p t, ∃ u, r = Request.describeContent u p := by
  intro r hr
  rw [parseRequests.eq_def] at hr
  rcases List.mem_cons.mp hr with rfl | hr2
  · exact ⟨_, rfl⟩
  · cases t with
    | file n l => simp at hr2
    | folder c n ch => exact forestRequests_param p ch r hr2

/-! Claim theorems. -/

/-- C1: for every remote content tree and starting directory, the manifest
built by `_parseLinks` is exactly the file nodes of the deterministic
depth-first pre-order traversal of the remote listing, in traversal order
(sibling order as listed remotely), and the local directories it creates
are exactly the folder nodes of that traversal, in visit order, each
mirrored under its parent's directory. -/
theorem C1_parseLinks_preorder (t : ContentNode) (cwd : List String) :
    (parseLinks t cwd).1 = (visitForest cwd [t]).filterMap fileEntryOf
    ∧ (parseLinks t cwd).2 = (visitForest cwd [t]).filterMap dirOf :=
  parseForest_spec [t] cwd

/-- C3: when the final target path already exists with size greater
than 0, `_downloadContent` makes zero network requests, reports the file
as already existing, and returns with the filesystem unchanged. -/
theorem C3_skip_no_request (fi : FileInfo) (fs : Fs) (resp : HttpResponse)
    (n : Nat) (hex : fs fi.path = some n) (hpos : 0 < n) :
    downloadContent fi fs resp =
      { fs := fs, outcome := .skipped, requests := 0, rangeHeader := none,
        events := [], partTrace := [],
        reports := [Report.alreadyExists fi.filename] } := by
  have h : existsPos fs fi.path = true := by
    simp [existsPos, hex, hpos]
  unfold downloadContent
  rw [h]
  simp

/-- Witness for C3 at a concrete input: target `x` exists with size 7, so
the fetch is skipped with no request and an unchanged filesystem. -/
theorem C3_skip_no_request_witness :
    ((fun q => if q = "x" then some 7 else none) : Fs) "x" = some 7
    ∧ 0 < 7
    ∧ downloadContent ⟨"x", "x", "L"⟩
        (fun q => if q = "x" then some 7 else none)
        ⟨200, none, none, [], false⟩ =
      { fs := fun q => if q = "x" then some 7 else none,
        outcome := .skipped, requests := 0, rangeHeader := none,
        events := [], partTrace := [],
        reports := [Report.alreadyExists "x"] } :=
  ⟨by decide, by decide,
    C3_skip_no_request ⟨"x", "x", "L"⟩
      (fun q => if q = "x" then some 7 else none)
      ⟨200, none, none, [], false⟩ 7 (by decide) (by decide)⟩

/-- C4 counterexample: a response with status 200 at resume offset 0 but
no `Content-Length` header makes `_downloadContent` abort the file (a
failure line is reported and no body bytes are written) even though the
claim's status condition is false, refuting the claimed "if and only
if". -/
theorem C4_counterexample :
    (downloadContent ⟨"f", "f", "L"⟩ (fun _ => none)
        ⟨200, none, none, [], false⟩).reports
      = [Report.sizeMissing "L" 200]
    ∧ (downloadContent ⟨"f", "f", "L"⟩ (fun _ => none)
        ⟨200, none, none, [], false⟩).partTrace = []
    ∧ (downloadContent ⟨"f", "f", "L"⟩ (fun _ => none)
        ⟨200, none, none, [], false⟩).fs "f" = none
    ∧ (downloadContent ⟨"f", "f", "L"⟩ (fun _ => none)
        ⟨200, none, none, [], false⟩).fs "f.part" = none
    ∧ statusAbortCond 0 200 = false := by
  refine ⟨?_, ?_, ?_, ?_, ?_⟩ <;> decide

/-- C5 counterexample: a `.part` marker that exists with size 0 gives
resume offset 0, yet `_downloadContent` still sends a `Range` header
(`bytes=0-`), refuting "no range header is sent when the offset is 0". -/
theorem C5_counterexample :
    (((fun q => if q = "f.part" then some 0 else none) : Fs)
        ("f" ++ ".part")).getD 0 = 0
    ∧ (downloadContent ⟨"f", "f", "L"⟩
        (fun q => if q = "f.part" then some 0 else none)
        ⟨200, some "5", none, [], false⟩).rangeHeader = some 0 := by
  constructor <;> decide

/-- C6: at resume offset 0 with declared size "5" and chunks of 3 then 2
bytes, the progress line reports 0 then 2 bytes transferred — the code
computes `part_size + i * len(chunk)` with `i` the 0-based chunk index —
while the bytes actually on disk after each chunk are 3 then 5, which is
what the claim (offset plus cumulative chunk bytes) requires. -/
theorem C6_progress_eval :
    (downloadContent ⟨"f", "f", "L"⟩ (fun _ => none)
        ⟨200, some "5", none, [3, 2], false⟩).events = [0, 2]
    ∧ (downloadContent ⟨"f", "f", "L"⟩ (fun _ => none)
        ⟨200, some "5", none, [3, 2], false⟩).partTrace = [3, 5]
    ∧ ([0, 2] : List Nat) ≠ [3, 5] := by
  refine ⟨?_, ?_, ?_⟩ <;> decide

/-- C7 counterexample: at resume offset 5 a 206 response with no
`Content-Range` header aborts the file via an uncaught exception
(`None.split`, then `int(None)` in the `finally` block): no body bytes are
written and no final file is created, but nothing at all is reported,
refuting the claimed "aborts (reported, ...)". -/
theorem C7_counterexample :
    (downloadContent ⟨"f", "f", "L"⟩
        (fun q => if q = "f.part" then some 5 else none)
        ⟨206, some "20", none, [], false⟩).reports = []
    ∧ (downloadContent ⟨"f", "f", "L"⟩
        (fun q => if q = "f.part" then some 5 else none)
        ⟨206, some "20", none, [], false⟩).outcome = .crashTypeError
    ∧ (downloadContent ⟨"f", "f", "L"⟩
        (fun q => if q = "f.part" then some 5 else none)
        ⟨206, some "20", none, [], false⟩).partTrace = []
    ∧ (downloadContent ⟨"f", "f", "L"⟩
        (fun q => if q = "f.part" then some 5 else none)
        ⟨206, some "20", none, [], false⟩).fs "f" = none := by
  refine ⟨?_, ?_, ?_, ?_⟩ <;> decide

/-- C8 counterexample: a response declaring total size 3 whose body
delivers a 5-byte chunk leaves a `.part` marker of 5 bytes — during the
stream and after the fetch — exceeding the declared total, refuting the
claimed invariant. -/
theorem C8_counterexample :
    (downloadContent ⟨"f", "f", "L"⟩ (fun _ => none)
        ⟨200, some "3", none, [5], false⟩).partTrace = [5]
    ∧ (downloadContent ⟨"f", "f", "L"⟩ (fun _ => none)
        ⟨200, some "3", none, [5], false⟩).fs "f.part" = some 5
    ∧ ¬(5 ≤ 3) := by
  refine ⟨?_, ?_, ?_⟩ <;> decide

/-- C2: for every fetch attempt that passes status validation and obtains
a parseable declared total size — including attempts ended by an
exception during streaming, since the `finally` block always runs — the
`.part` marker is renamed to the final target path iff its resulting byte
size (resume offset plus delivered body bytes) equals the declared total
size exactly; when the sizes differ the marker is left in place with that
size and the final target path is untouched. -/
theorem C2_rename_iff_exact_size (fi : FileInfo) (fs : Fs)
    (resp : HttpResponse) (s : String) (n : Nat)
    (hE : existsPos fs fi.path = false)
    (hS : statusAbortCond ((fs (fi.path ++ ".part")).getD 0) resp.status
      = false)
    (hsz : (if (fs (fi.path ++ ".part")).getD 0 = 0 then resp.contentLength
            else resp.contentRange.map splitLast) = some s)
    (hn : parseSize s = some n) :
    ((downloadContent fi fs resp).fs fi.path
        = some ((fs (fi.path ++ ".part")).getD 0 + resp.chunks.sum)
      ∧ (downloadContent fi fs resp).fs (fi.path ++ ".part") = none
     ↔ (fs (fi.path ++ ".part")).getD 0 + resp.chunks.sum = n)
    ∧ ((fs (fi.path ++ ".part")).getD 0 + resp.chunks.sum ≠ n →
        (downloadContent fi fs resp).fs (fi.path ++ ".part")
          = some ((fs (fi.path ++ ".part")).getD 0 + resp.chunks.sum)
        ∧ (downloadContent fi fs resp).fs fi.path = fs fi.path) := by
  rw [downloadContent_noSkip _ _ _ hE, downloadBody_toStream _ _ _ s hS hsz]
  exact afterSize_fs_spec _ _ _ _ _ _ _ _ hn (part_ne fi.path)

/-- Witness for C2 at a concrete input: offset 0, declared size "5",
chunks 3 and 2, so the sizes match and the marker is renamed. -/
theorem C2_rename_iff_exact_size_witness :
    parseSize "5" = some 5
    ∧ (((downloadContent ⟨"d", "d", "L"⟩ (fun _ => none)
          ⟨200, some "5", none, [3, 2], false⟩).fs "d" = some 5
        ∧ (downloadContent ⟨"d", "d", "L"⟩ (fun _ => none)
            ⟨200, some "5", none, [3, 2], false⟩).fs ("d" ++ ".part") = none
       ↔ (5 : Nat) = 5)
      ∧ ((5 : Nat) ≠ 5 →
          (downloadContent ⟨"d", "d", "L"⟩ (fun _ => none)
            ⟨200, some "5", none, [3, 2], false⟩).fs ("d" ++ ".part")
              = some 5
          ∧ (downloadContent ⟨"d", "d", "L"⟩ (fun _ => none)
              ⟨200, some "5", none, [3, 2], false⟩).fs "d"
              = (fun _ => (none : Option Nat)) "d")) :=
  ⟨by decide,
    C2_rename_iff_exact_size ⟨"d", "d", "L"⟩ (fun _ => none)
      ⟨200, some "5", none, [3, 2], false⟩ "5" 5 (by decide) (by decide)
      (by decide) (by decide)⟩

/-- C4 (amended): the status validation aborts the fetch iff the status
is in {403, 404, 405, 500}, or the resume offset is 0 and the status is
not 200, or the offset is positive and the status is not 206; such an
abort reports the status code and writes no body bytes, leaving the
filesystem unchanged, and the scheduler still runs one independent task
per manifest entry.  The original claim's "only if" direction fails: a
missing size header also aborts with nothing written after status
validation passes (see the counterexample). -/
theorem C4_amended_status_abort (fi : FileInfo) (fs : Fs)
    (resp : HttpResponse) (hE : existsPos fs fi.path = false) :
    (statusAbortCond ((fs (fi.path ++ ".part")).getD 0) resp.status = true →
      (downloadContent fi fs resp).reports
          = [Report.statusError fi.link resp.status]
        ∧ (downloadContent fi fs resp).fs = fs
        ∧ (downloadContent fi fs resp).partTrace = []
        ∧ (downloadContent fi fs resp).events = [])
    ∧ (statusAbortCond ((fs (fi.path ++ ".part")).getD 0) resp.status
        = false →
        ∀ c, Report.statusError fi.link c
          ∉ (downloadContent fi fs resp).reports)
    ∧ ∀ (items : List FileInfo) (env : FileInfo → Fs × HttpResponse),
        threadedDownloads items env
          = items.map fun x => downloadContent x (env x).1 (env x).2 := by
  rw [downloadContent_noSkip _ _ _ hE]
  refine ⟨?_, ?_, fun items env => rfl⟩
  · intro hS
    rw [downloadBody_statusAbort _ _ _ hS]
    exact ⟨rfl, rfl, rfl, rfl⟩
  · intro hS c
    by_cases hp : (fs (fi.path ++ ".part")).getD 0 = 0
    · cases hcl : resp.contentLength with
      | none =>
          rw [downloadBody_noCL _ _ _ hS hp hcl]
          simp
      | some s =>
          rw [downloadBody_withCL _ _ _ s hS hp hcl]
          exact (afterSize_proj _ _ _ _ _ _ _).2.2 fi.link c
    · cases hcr : resp.contentRange with
      | none =>
          rw [downloadBody_noCR _ _ _ hS hp hcr]
          simp
      | some cr =>
          rw [downloadBody_withCR _ _ _ cr hS hp hcr]
          exact (afterSize_proj _ _ _ _ _ _ _).2.2 fi.link c

/-- Witness for the amended C4 at a concrete input: a 404 response at
offset 0 is reported with its status code and nothing is written. -/
theorem C4_amended_status_abort_witness :
    existsPos (fun _ => none) "f" = false
    ∧ statusAbortCond 0 404 = true
    ∧ ((downloadContent ⟨"f", "f", "L"⟩ (fun _ => none)
          ⟨404, none, none, [], false⟩).reports
        = [Report.statusError "L" 404]
      ∧ (downloadContent ⟨"f", "f", "L"⟩ (fun _ => none)
          ⟨404, none, none, [], false⟩).fs = (fun _ => none)
      ∧ (downloadContent ⟨"f", "f", "L"⟩ (fun _ => none)
          ⟨404, none, none, [], false⟩).partTrace = []
      ∧ (downloadContent ⟨"f", "f", "L"⟩ (fun _ => none)
          ⟨404, none, none, [], false⟩).events = []) :=
  ⟨by decide, by decide,
    (C4_amended_status_abort ⟨"f", "f", "L"⟩ (fun _ => none)
      ⟨404, none, none, [], false⟩ (by decide)).1 (by decide)⟩

/-- C5 (amended): the resume offset equals the byte size of an existing
`.part` marker and 0 when no marker exists, and the streaming GET carries
a byte-range header starting at that offset exactly when the marker
exists — including a zero-size marker, where the offset is 0 yet
`bytes=0-` is still sent, which is where the original claim fails (see
the counterexample); exactly one request is made. -/
theorem C5_amended_range_iff_marker (fi : FileInfo) (fs : Fs)
    (resp : HttpResponse) (hE : existsPos fs fi.path = false) :
    (downloadContent fi fs resp).rangeHeader
      = (if (fs (fi.path ++ ".part")).isSome
         then some ((fs (fi.path ++ ".part")).getD 0) else none)
    ∧ (downloadContent fi fs resp).requests = 1 := by
  rw [downloadContent_noSkip _ _ _ hE]
  cases hS : statusAbortCond ((fs (fi.path ++ ".part")).getD 0) resp.status
    with
  | true =>
      rw [downloadBody_statusAbort _ _ _ hS]
      exact ⟨rfl, rfl⟩
  | false =>
      by_cases hp : (fs (fi.path ++ ".part")).getD 0 = 0
      · cases hcl : resp.contentLength with
        | none =>
            rw [downloadBody_noCL _ _ _ hS hp hcl]
            exact ⟨rfl, rfl⟩
        | some s =>
            rw [downloadBody_withCL _ _ _ s hS hp hcl]
            exact ⟨(afterSize_proj _ _ _ _ _ _ _).1,
              (afterSize_proj _ _ _ _ _ _ _).2.1⟩
      · cases hcr : resp.contentRange with
        | none =>
            rw [downloadBody_noCR _ _ _ hS hp hcr]
            have hsome : (fs (fi.path ++ ".part")).isSome = true := by
              cases h : fs (fi.path ++ ".part") with
              | none => exact absurd (by rw [h]; rfl) hp
              | some v => rfl
            rw [hsome]
            exact ⟨by simp, rfl⟩
        | some cr =>
            rw [downloadBody_withCR _ _ _ cr hS hp hcr]
            exact ⟨(afterSize_proj _ _ _ _ _ _ _).1,
              (afterSize_proj _ _ _ _ _ _ _).2.1⟩

/-- Witness for the amended C5 at a concrete input: a 4-byte `.part`
marker yields a range header at offset 4 and one request. -/
theorem C5_amended_range_iff_marker_witness :
    existsPos (fun q => if q = "w.part" then some 4 else none) "w" = false
    ∧ ((downloadContent ⟨"w", "w", "L"⟩
          (fun q => if q = "w.part" then some 4 else none)
          ⟨206, none, some "bytes 4-9/10", [6], false⟩).rangeHeader
        = (if (((fun q => if q = "w.part" then some 4 else none) : Fs)
              ("w" ++ ".part")).isSome
           then some ((((fun q => if q = "w.part" then some 4 else none) :
              Fs) ("w" ++ ".part")).getD 0)
           else none)
      ∧ (downloadContent ⟨"w", "w", "L"⟩
          (fun q => if q = "w.part" then some 4 else none)
          ⟨206, none, some "bytes 4-9/10", [6], false⟩).requests = 1) :=
  ⟨by decide,
    C5_amended_range_iff_marker ⟨"w", "w", "L"⟩
      (fun q => if q = "w.part" then some 4 else none)
      ⟨206, none, some "bytes 4-9/10", [6], false⟩ (by decide)⟩

/-- C7 (amended): when status validation passes, the declared total size
is taken from `Content-Length` when the resume offset is 0 and from the
total-size suffix of `Content-Range` when the offset is positive; when
that value is absent or empty the fetch aborts with no body bytes
written, no file created and the filesystem unchanged, reporting the
failure — except that when the offset is positive and the `Content-Range`
header is entirely absent, the abort is an uncaught exception and nothing
is reported (where the original claim fails, see the counterexample); the
scheduler still runs one task per entry. -/
theorem C7_amended_missing_size (fi : FileInfo) (fs : Fs)
    (resp : HttpResponse)
    (hE : existsPos fs fi.path = false)
    (hS : statusAbortCond ((fs (fi.path ++ ".part")).getD 0) resp.status
      = false)
    (hmiss : (if (fs (fi.path ++ ".part")).getD 0 = 0 then resp.contentLength
              else resp.contentRange.map splitLast) = none
           ∨ (if (fs (fi.path ++ ".part")).getD 0 = 0 then resp.contentLength
              else resp.contentRange.map splitLast) = some "") :
    (downloadContent fi fs resp).fs = fs
    ∧ (downloadContent fi fs resp).partTrace = []
    ∧ (downloadContent fi fs resp).events = []
    ∧ (downloadContent fi fs resp).reports
        = (if (fs (fi.path ++ ".part")).getD 0 ≠ 0
              ∧ resp.contentRange = none
           then [] else [Report.sizeMissing fi.link resp.status])
    ∧ ∀ (items : List FileInfo) (env : FileInfo → Fs × HttpResponse),
        threadedDownloads items env
          = items.map fun x => downloadContent x (env x).1 (env x).2 := by
  rw [downloadContent_noSkip _ _ _ hE]
  by_cases hp : (fs (fi.path ++ ".part")).getD 0 = 0
  · rw [if_pos hp] at hmiss
    rcases hmiss with h | h
    · rw [downloadBody_noCL _ _ _ hS hp h]
      refine ⟨rfl, rfl, rfl, ?_, fun items env => rfl⟩
      exact (if_neg (fun hcon => hcon.1 hp)).symm
    · rw [downloadBody_withCL _ _ _ "" hS hp h, afterSize_emptyStr]
      refine ⟨rfl, rfl, rfl, ?_, fun items env => rfl⟩
      exact (if_neg (fun hcon => hcon.1 hp)).symm
  · rw [if_neg hp] at hmiss
    rcases hmiss with h | h
    · have hcr : resp.contentRange = none := by
        cases hcr2 : resp.contentRange with
        | none => rfl
        | some cr => rw [hcr2] at h; simp at h
      rw [downloadBody_noCR _ _ _ hS hp hcr]
      refine ⟨rfl, rfl, rfl, ?_, fun items env => rfl⟩
      exact (if_pos ⟨hp, hcr⟩).symm
    · cases hcr2 : resp.contentRange with
      | none => rw [hcr2] at h; simp at h
      | some cr =>
          rw [hcr2] at h
          simp only [Option.map_some', Option.some.injEq] at h
          rw [downloadBody_withCR _ _ _ cr hS hp hcr2, h, afterSize_emptyStr]
          refine ⟨rfl, rfl, rfl, ?_, fun items env => rfl⟩
          exact (if_neg (fun hcon => Option.noConfusion hcon.2)).symm

/-- Witness for the amended C7 at a concrete input: a 200 response at
offset 0 with no `Content-Length` header is reported as missing the file
size, with nothing written. -/
theorem C7_amended_missing_size_witness :
    existsPos (fun _ => none) "g" = false
    ∧ ((downloadContent ⟨"g", "g", "L"⟩ (fun _ => none)
          ⟨200, none, none, [], false⟩).fs = (fun _ => none)
      ∧ (downloadContent ⟨"g", "g", "L"⟩ (fun _ => none)
          ⟨200, none, none, [], false⟩).partTrace = []
      ∧ (downloadContent ⟨"g", "g", "L"⟩ (fun _ => none)
          ⟨200, none, none, [], false⟩).events = []
      ∧ (downloadContent ⟨"g", "g", "L"⟩ (fun _ => none)
          ⟨200, none, none, [], false⟩).reports
          = [Report.sizeMissing "L" 200]
      ∧ ∀ (items : List FileInfo) (env : FileInfo → Fs × HttpResponse),
          threadedDownloads items env
            = items.map fun x => downloadContent x (env x).1 (env x).2) :=
  ⟨by decide,
    C7_amended_missing_size ⟨"g", "g", "L"⟩ (fun _ => none)
      ⟨200, none, none, [], false⟩ (by decide) (by decide)
      (Or.inl (by decide))⟩

/-- C8 (amended): provided the resume offset plus the delivered body
bytes does not exceed the declared total size — as when the server serves
exactly the declared range — the `.part` marker's byte length stays
within the declared total after every chunk write and at the end of the
fetch.  The code does not clamp an over-long body, so the original
unconditional invariant fails (see the counterexample). -/
theorem C8_amended_part_bounded (fi : FileInfo) (fs : Fs)
    (resp : HttpResponse) (s : String) (n : Nat)
    (hE : existsPos fs fi.path = false)
    (hS : statusAbortCond ((fs (fi.path ++ ".part")).getD 0) resp.status
      = false)
    (hsz : (if (fs (fi.path ++ ".part")).getD 0 = 0 then resp.contentLength
            else resp.contentRange.map splitLast) = some s)
    (hn : parseSize s = some n)
    (hbound : (fs (fi.path ++ ".part")).getD 0 + resp.chunks.sum ≤ n) :
    (∀ x ∈ (downloadContent fi fs resp).partTrace, x ≤ n)
    ∧ (∀ m, (downloadContent fi fs resp).fs (fi.path ++ ".part") = some m →
        m ≤ n) := by
  have hne : s ≠ "" := by
    rintro rfl
    rw [show parseSize "" = none from rfl] at hn
    exact Option.noConfusion hn
  rw [downloadContent_noSkip _ _ _ hE, downloadBody_toStream _ _ _ s hS hsz,
    afterSize_stream _ _ _ _ _ _ _ _ hne hn]
  by_cases hf : (fs (fi.path ++ ".part")).getD 0 + resp.chunks.sum = n
  · rw [if_pos hf]
    constructor
    · intro x hx
      exact le_trans (streamTrace_le _ _ x hx) hbound
    · intro m hm
      simp [fsWrite, fsErase, part_ne fi.path] at hm
  · rw [if_neg hf]
    constructor
    · intro x hx
      exact le_trans (streamTrace_le _ _ x hx) hbound
    · intro m hm
      simp [fsWrite] at hm
      omega

/-- Witness for the amended C8 at a concrete input: declared size 5,
chunks 3 and 2, so every intermediate and final `.part` size is at
most 5. -/
theorem C8_amended_part_bounded_witness :
    parseSize "5" = some 5
    ∧ (((fun _ => (none : Option Nat)) ("h" ++ ".part")).getD 0
        + ([3, 2] : List Nat).sum ≤ 5)
    ∧ ((∀ x ∈ (downloadContent ⟨"h", "h", "L"⟩ (fun _ => none)
          ⟨200, some "5", none, [3, 2], false⟩).partTrace, x ≤ 5)
      ∧ (∀ m, (downloadContent ⟨"h", "h", "L"⟩ (fun _ => none)
          ⟨200, some "5", none, [3, 2], false⟩).fs ("h" ++ ".part")
            = some m → m ≤ 5)) :=
  ⟨by decide, by decide,
    C8_amended_part_bounded ⟨"h", "h", "L"⟩ (fun _ => none)
      ⟨200, some "5", none, [3, 2], false⟩ "5" 5 (by decide) (by decide)
      (by decide) (by decide) (by decide)⟩

/-- C10: with a non-empty password, every describe-content request of the
run carries the SHA-256 hex digest of the password as its password query
parameter; no request of the run carries the raw password as its password
parameter (given the password is not a fixed point of its own hex
digest); and with no password, no request carries a password parameter at
all. -/
theorem C10_password_hashed (pw : String) (hne : pw ≠ "")
    (hfix : pw ≠ sha256hex pw) (rootId : String) (t : ContentNode) :
    (∀ u p, Request.describeContent u p ∈ runRequests rootId (some pw) t →
      p = some (sha256hex pw))
    ∧ (∀ r ∈ runRequests rootId (some pw) t,
        passwordParamOf r ≠ some pw)
    ∧ (∀ r ∈ runRequests rootId none t, passwordParamOf r = none) := by
  have hhash : hashedPassword (some pw) = some (sha256hex pw) := by
    simp [hashedPassword, hne]
  refine ⟨?_, ?_, ?_⟩
  · intro u p hr
    rw [runRequests] at hr
    rcases List.mem_cons.mp hr with h | h
    · exact absurd h (by simp)
    · rcases List.mem_append.mp h with h2 | h2
      · rcases parseRequests_param rootId _ t _ h2 with ⟨u2, hu⟩
        rw [hhash] at hu
        have h4 := congrArg passwordParamOf hu
        simpa [passwordParamOf] using h4
      · rcases List.mem_map.mp h2 with ⟨e, _, he⟩
        exact absurd he (by simp)
  · intro r hr
    rw [runRequests] at hr
    rcases List.mem_cons.mp hr with rfl | h
    · simp [passwordParamOf]
    · rcases List.mem_append.mp h with h2 | h2
      · rcases parseRequests_param rootId _ t _ h2 with ⟨u2, hu⟩
        subst hu
        rw [hhash]
        intro hcon
        have h3 : sha256hex pw = pw := by
          simpa [passwordParamOf] using hcon
        exact hfix h3.symm
      · rcases List.mem_map.mp h2 with ⟨e, _, he⟩
        subst he
        simp [passwordParamOf]
  · intro r hr
    rw [runRequests] at hr
    rcases List.mem_cons.mp hr with rfl | h
    · simp [passwordParamOf]
    · rcases List.mem_append.mp h with h2 | h2
      · rcases parseRequests_param rootId _ t _ h2 with ⟨u2, hu⟩
        subst hu
        simp [passwordParamOf, hashedPassword]
      · rcases List.mem_map.mp h2 with ⟨e, _, he⟩
        subst he
        simp [passwordParamOf]

set_option maxRecDepth 1000000 in
/-- Witness for C10 at a concrete input: password "a" — whose SHA-256 hex
digest, computed inside Lean, is not the string "a" — a root id, and a
one-file folder tree. -/
theorem C10_password_hashed_witness :
    ("a" : String) ≠ ""
    ∧ ("a" : String) ≠ sha256hex "a"
    ∧ ((∀ u p, Request.describeContent u p
          ∈ runRequests "rootid" (some "a")
              (ContentNode.folder "c1" "root" [ContentNode.file "f" "lnk"]) →
        p = some (sha256hex "a"))
      ∧ (∀ r ∈ runRequests "rootid" (some "a")
            (ContentNode.folder "c1" "root" [ContentNode.file "f" "lnk"]),
          passwordParamOf r ≠ some "a")
      ∧ (∀ r ∈ runRequests "rootid" none
            (ContentNode.folder "c1" "root" [ContentNode.file "f" "lnk"]),
          passwordParamOf r = none)) :=
  ⟨by decide, by decide,
    C10_password_hashed "a" (by decide) (by decide) "rootid"
      (ContentNode.folder "c1" "root" [ContentNode.file "f" "lnk"])⟩

end Gofile
